import Mathlib

/-!
Verification of the draft-board builder (`make_draft_board.py`).

We embed the player-identity reconciliation / merge pipeline shallowly:
Python dicts become association lists that keep insertion order (overwriting
a key keeps its original position, as CPython dicts do), JSON documents
become an inductive `Json` type, and exceptions become `Except`.
-/

/-! ### Name normalization (`get_adp_data` lines 92-96, and the identical
inline code in `add_player_rankings` and `get_sportsdataio_data`) -/

/-- Python `s.replace(' ', '_')`. -/
def pyUnderscoreSpaces (s : String) : String :=
  ⟨s.data.map (fun c => if c = ' ' then '_' else c)⟩

/-- Python `s.replace('.', '')`. -/
def pyStripDots (s : String) : String :=
  ⟨s.data.filter (fun c => c ≠ '.')⟩

/-- Python `s.lower()` (ASCII, which covers all names in the data). -/
def pyLower (s : String) : String :=
  ⟨s.data.map Char.toLower⟩

/-- `PLAYER_NAME_MAP`: the static alias table mapping display-name variants
to canonical identity keys (source lines 23-51). -/
def PLAYER_NAME_MAP : List (String × String) :=
  [("Travis Etienne Jr.", "travis_etienne"),
   ("Travis Etienne", "travis_etienne"),
   ("Melvin Gordon III", "melvin_gordon"),
   ("Melvin Gordon", "melvin_gordon"),
   ("Ronald Jones II", "ronald_jones"),
   ("Ronald Jones", "ronald_jones"),
   ("Darrell Henderson", "darrell_henderson"),
   ("Darrell Henderson Jr.", "darrell_henderson"),
   ("Mark Ingram", "mark_ingram"),
   ("Mark Ingram II", "mark_ingram"),
   ("Isaih Pacheco", "isiah_pacheco"),
   ("Isiah Pacheco", "isiah_pacheco"),
   ("Brian Robinson Jr.", "brian_robinson"),
   ("Brian Robinson", "brian_robinson"),
   ("Jeffery Wilson", "jeffery_wilson"),
   ("Jeff Wilson Jr.", "jeffery_wilson"),
   ("Allen Robinson", "allen_robinson"),
   ("Allen Robinson II", "allen_robinson"),
   ("Gabriel Davis", "gabe_davis"),
   ("Gabe Davis", "gabe_davis"),
   ("Josh Palmer", "josh_palmer"),
   ("Joshua Palmer", "josh_palmer"),
   ("Robby Anderson", "robbie_anderson"),
   ("Robbie Anderson", "robbie_anderson"),
   ("Marvin Jones", "marvin_jones"),
   ("Marvin Jones Jr.", "marvin_jones"),
   ("Robert Tonyan Jr.", "robert_tonyan"),
   ("Robert Tonyan", "robert_tonyan")]

/-- `MY_GUYS`: the static favorite set (source lines 53-61). -/
def MY_GUYS : List String :=
  ["allen_robinson", "aj_dillon", "mike_williams", "jalen_hurts",
   "chase_edmonds", "gabe_davis", "courtland_sutton", "allen_lazard",
   "michael_pittman_jr"]

/-- Exact-string lookup in the alias table (Python `name in PLAYER_NAME_MAP`
followed by `PLAYER_NAME_MAP[name]`). -/
def aliasLookup (name : String) : Option String :=
  (PLAYER_NAME_MAP.find? (fun kv => kv.1 = name)).map (fun kv => kv.2)

/-- The identity-key normalization shared verbatim by all three ingestors:
`key = name.replace(' ', '_').replace('.', '').lower()`, overridden by the
alias table when the display name is literally one of its keys. -/
def normalizeName (name : String) : String :=
  let key := pyLower (pyStripDots (pyUnderscoreSpaces name))
  match aliasLookup name with
  | some k => k
  | none => key

/-- The spec-side description of the default transform, as one pass over the
characters: periods are stripped, spaces become underscores, everything else
is lowercased. Used to check the source's three-pass pipeline against the
spec sentence. -/
def specTransform (s : String) : String :=
  ⟨s.data.foldr
    (fun c acc => if c = '.' then acc else (if c = ' ' then '_' else c.toLower) :: acc) []⟩

/-! ### Python `int(...)` -/

/-- Value of a nonempty all-digit string. -/
def digitsVal (ds : List Char) : Nat :=
  ds.foldl (fun n c => 10 * n + (c.toNat - 48)) 0

/-- The whitespace stripping `int(...)` performs on its argument. -/
def pyStrip (l : List Char) : List Char :=
  ((l.dropWhile Char.isWhitespace).reverse.dropWhile Char.isWhitespace).reverse

/-- Python `int(s)` on a string: optional surrounding whitespace, optional
sign, then a nonempty run of digits; anything else raises `ValueError`,
modelled as `none`. -/
def pyInt (s : String) : Option Int :=
  let t := pyStrip s.data
  let core : List Char → Option Int := fun ds =>
    if ds ≠ [] ∧ ds.all Char.isDigit then some (digitsVal ds) else none
  match t with
  | '-' :: ds => (core ds).map (fun n => -n)
  | '+' :: ds => core ds
  | ds => core ds

/-! ### The unified player record and the accumulating mapping -/

/-- A unified player record: the primary-source fields are always present
(the primary API provides them for every player), the enrichment fields are
optional and absent until an enricher sets them, exactly as keys absent from
the Python player dict. -/
structure Player where
  name : String
  position : String
  team : String
  adp : Rat
  my_guy : Option Bool := none
  rank : Option Int := none
  andy : Option Int := none
  mike : Option Int := none
  jason : Option Int := none
  depth_order : Option Int := none
  depth_display_order : Option Int := none
deriving Repr, DecidableEq

/-- The accumulating identity-keyed mapping: an insertion-ordered
association list, the shallow embedding of a CPython dict. -/
abbrev PMap := List (String × Player)

/-- Python `key in d`. -/
def containsKey (m : PMap) (k : String) : Bool :=
  m.any (fun kv => kv.1 = k)

/-- Python `d[key] = v`: overwrite in place when the key exists (keeping its
original position, as CPython dicts do), append otherwise. -/
def dictSet (m : PMap) (k : String) (v : Player) : PMap :=
  match m with
  | [] => [(k, v)]
  | kv :: rest => if kv.1 = k then (k, v) :: rest else kv :: dictSet rest k v

/-- Python `d[key]` as a total lookup (first occurrence). -/
def lookupDict (m : PMap) (k : String) : Option Player :=
  (m.find? (fun kv => kv.1 = k)).map (fun kv => kv.2)

/-- Update the value at an existing key in place; a no-op when the key is
absent (every use in the source is guarded by `key in adp_data`). -/
def dictModify (m : PMap) (k : String) (f : Player → Player) : PMap :=
  m.map (fun kv => if kv.1 = k then (kv.1, f kv.2) else kv)

/-- The keys of the mapping, in insertion order. -/
def mapKeys (m : PMap) : List String :=
  m.map (fun kv => kv.1)

/-! ### Primary ingestor: `get_adp_data` (source lines 63-111) -/

/-- One player object of the primary ADP response. -/
structure AdpPlayer where
  name : String
  position : String
  team : String
  adp : Rat
deriving Repr, DecidableEq

/-- The primary response body: a possibly-missing `status` field (Python
`adp_r_json.get("status", "bad")`) and the player list. -/
structure AdpJson where
  status : Option String
  players : List AdpPlayer
deriving Repr, DecidableEq

/-- The primary HTTP response: `adp_r.ok`, its JSON body, and the raw text
used in the failure log. -/
structure AdpResponse where
  ok : Bool
  json : AdpJson
  text : String
deriving Repr, DecidableEq

/-- The unified record a primary player object starts as: the enrichment
fields are all absent. -/
def AdpPlayer.toPlayer (p : AdpPlayer) : Player :=
  { name := p.name, position := p.position, team := p.team, adp := p.adp }

/-- The body of the per-player loop of `get_adp_data` (lines 90-103):
normalize the name, log a duplicate hit when the key is already present,
then set the key (overwriting any earlier occurrence). -/
def adpStep (acc : PMap × List String) (player : AdpPlayer) : PMap × List String :=
  let key := normalizeName player.name
  let logs := if containsKey acc.1 key
              then acc.2 ++ [player.name ++ " has duplicate hits."]
              else acc.2
  (dictSet acc.1 key player.toPlayer, logs)

/-- `get_adp_data`: raises on transport failure (`not adp_r.ok`, line 109)
and on a non-success status (line 106); otherwise folds the player list into
the identity-keyed mapping, returning it with the log lines. -/
def get_adp_data (resp : AdpResponse) : Except String (PMap × List String) :=
  if resp.ok then
    if resp.json.status.getD "bad" = "Success" then
      Except.ok (resp.json.players.foldl adpStep ([], []))
    else Except.error "Bad ADP API Call Status"
  else Except.error "Bad ADP API Call"

/-! ### Ranking ingestor: `add_player_rankings` (source lines 114-159) -/

/-- One CSV row, with the columns the source reads. -/
structure CsvRow where
  Name : String
  Rank : String
  Andy : String
  Mike : String
  Jason : String
deriving Repr, DecidableEq

/-- The enrichment a matched row applies to its record (lines 149-159):
`my_guy` is set first, then the four numeric fields are assigned one by one
inside a `try` block, so the first parse failure aborts the remaining
assignments but keeps the earlier ones; a failure also emits a log line. -/
def rowUpdate (key : String) (row : CsvRow) (p : Player) : Player × List String :=
  let p0 := { p with my_guy := some (MY_GUYS.contains key) }
  match pyInt row.Rank with
  | none => (p0, ["Bad Values for " ++ row.Name])
  | some r =>
    let p1 := { p0 with rank := some r }
    match pyInt row.Andy with
    | none => (p1, ["Bad Values for " ++ row.Name])
    | some a =>
      let p2 := { p1 with andy := some a }
      match pyInt row.Mike with
      | none => (p2, ["Bad Values for " ++ row.Name])
      | some mk =>
        let p3 := { p2 with mike := some mk }
        match pyInt row.Jason with
        | none => (p3, ["Bad Values for " ++ row.Name])
        | some j => ({ p3 with jason := some j }, [])

/-- The body of the per-row loop (lines 136-159): normalize the name; a row
whose key is absent from the mapping is skipped (the log call on line 146 is
commented out in the source); a matched row updates its record in place. -/
def applyRow (m : PMap) (lg : List String) (row : CsvRow) : PMap × List String :=
  let key := normalizeName row.Name
  match lookupDict m key with
  | none => (m, lg)
  | some p =>
    let u := rowUpdate key row p
    (dictModify m key (fun _ => u.1), lg ++ u.2)

/-- `add_player_rankings`: the four position files in order; a missing file
is logged and skipped whole (lines 129-131), a present file's rows are
folded through `applyRow`. The function is total: it never raises. -/
def add_player_rankings (files : List (Option (List CsvRow))) (adp_data : PMap) :
    PMap × List String :=
  files.foldl
    (fun acc file =>
      match file with
      | none => (acc.1, acc.2 ++ ["Ranking File Does Not Exist"])
      | some rows => rows.foldl (fun a row => applyRow a.1 a.2 row) acc)
    (adp_data, [])

/-! ### Organizer: `organize_db_data` (source lines 162-191) -/

/-- Python `position_k in db_data`. -/
def containsB (db : List (String × List Player)) (pos : String) : Bool :=
  db.any (fun b => b.1 = pos)

/-- Python `db_data[position_k].append(...)`: append to the bucket with that
key, in place. -/
def bucketAppend (db : List (String × List Player)) (pos : String) (p : Player) :
    List (String × List Player) :=
  db.map (fun b => if b.1 = pos then (b.1, b.2 ++ [p]) else b)

/-- The body of the bucketing loop (lines 174-185): lowercase the position,
skip kickers and defenses, append to the matching bucket, and log an
unrecognized position. -/
def organizeStep (acc : List (String × List Player) × List String) (kv : String × Player) :
    List (String × List Player) × List String :=
  let position_k := pyLower kv.2.position
  if position_k = "def" ∨ position_k = "pk" then acc
  else if containsB acc.1 position_k then (bucketAppend acc.1 position_k kv.2, acc.2)
  else (acc.1, acc.2 ++ ["Position " ++ position_k ++ " not found"])

/-- Python `sorted(bucket, key=lambda d: d["adp"])`: a stable ascending sort
on the `adp` field (modelled by insertion sort, which is stable and sorted,
hence extensionally equal to timsort). -/
def sortByAdp (l : List Player) : List Player :=
  l.insertionSort (fun a b => a.adp ≤ b.adp)

/-- `organize_db_data`: start from the literal four-bucket dict (line 171),
fold every record of the mapping through the bucketing loop in insertion
order, then sort each bucket by `adp`. -/
def organize_db_data (adp_data : PMap) :
    (List (String × List Player)) × List String :=
  let init : List (String × List Player) := [("qb", []), ("rb", []), ("wr", []), ("te", [])]
  let folded := adp_data.foldl organizeStep (init, [])
  (folded.1.map (fun b => (b.1, sortByAdp b.2)), folded.2)

/-! ### Secondary ingestor: `get_sportsdataio_data` (source lines 194-263) -/

/-- One player object of the secondary (SportsData.IO) response. -/
structure SdioPlayer where
  Name : String
  DepthOrder : Int
  DepthDisplayOrder : Int
deriving Repr, DecidableEq

/-- The secondary HTTP response. -/
structure SdioResponse where
  ok : Bool
  json : List SdioPlayer
  text : String
deriving Repr, DecidableEq

/-- Everything outside the accumulated mapping that the secondary ingestor
reads: the cache snapshot file (contents when it exists), the clear-cache
flag, the credential from the environment, and the network response it would
get were it to call the API. -/
structure SdioEnv where
  cacheFile : Option (List SdioPlayer)
  clear_sd : Bool
  sports_data_api_key : Option String
  response : SdioResponse

/-- The body of the secondary mapping loop (lines 249-261): when the
normalized key is present, set the two depth-chart fields on that record. -/
def depthStep (acc : PMap) (player : SdioPlayer) : PMap :=
  let key := normalizeName player.Name
  if containsKey acc key then
    dictModify acc key
      (fun p => { p with depth_order := some player.DepthOrder,
                         depth_display_order := some player.DepthDisplayOrder })
  else acc

/-- The mapping loop (lines 247-261): for each secondary entry whose
normalized key is present, set the two depth-chart fields on that record. -/
def applyDepth (sdio : List SdioPlayer) (m : PMap) : PMap :=
  sdio.foldl depthStep m

/-- `get_sportsdataio_data`: load the snapshot when the file exists and the
clear flag is unset (lines 208-214); when nothing was loaded, return early
if no credential is configured (lines 218-221), otherwise call the API,
raising on transport failure (lines 242-244); finally map the depth-chart
values onto existing records (lines 246-263). -/
def get_sportsdataio_data (env : SdioEnv) (adp_data : PMap) :
    Except String (PMap × List String) :=
  let cacheLoad : List SdioPlayer × List String :=
    match env.cacheFile with
    | some cached =>
      if env.clear_sd = false
      then (cached, ["======= LOADING SPORTSDATA.IO FROM CACHE (clear with flag -csd) ======="])
      else ([], [])
    | none => ([], [])
  let sdio_json := cacheLoad.1
  if sdio_json.length < 1 then
    match env.sports_data_api_key with
    | none => Except.ok (adp_data, cacheLoad.2 ++ ["SportsData.IO Key is not defined"])
    | some _ =>
      if env.response.ok then
        let fetched := env.response.json
        if fetched.length > 0 then
          Except.ok (applyDepth fetched adp_data, cacheLoad.2)
        else
          Except.ok (adp_data, cacheLoad.2 ++ ["No SportsData.IO Data loaded"])
      else Except.error "Bad SportData.IO API Call"
  else
    Except.ok (applyDepth sdio_json adp_data, cacheLoad.2)

/-- The merge pipeline of `main` (lines 348-354): primary ingest, ranking
enrichment, then secondary enrichment, propagating any raised exception. -/
def buildDataset (resp : AdpResponse) (files : List (Option (List CsvRow)))
    (env : SdioEnv) : Except String (PMap × List String) :=
  match get_adp_data resp with
  | Except.error e => Except.error e
  | Except.ok pr =>
    let r := add_player_rankings files pr.1
    match get_sportsdataio_data env r.1 with
    | Except.error e => Except.error e
    | Except.ok r2 => Except.ok (r2.1, pr.2 ++ r.2 ++ r2.2)

/-! ### Cache snapshot serialization (`main` lines 342-345 and 356-358)

`json.dumps` / `json.load` are modelled at the document level: a JSON value
type (Python distinguishes `int` and `float` tokens, so the model does too),
an encoder producing the snapshot document of a merged dataset, and the
decoder reading it back.  Unset enrichment fields are absent object members,
exactly as keys absent from the Python player dict. -/

/-- A JSON value as Python reads and writes it. -/
inductive JsonVal where
  | jnull : JsonVal
  | jbool (b : Bool) : JsonVal
  | jint (n : Int) : JsonVal
  | jnum (q : Rat) : JsonVal
  | jstr (s : String) : JsonVal
  | jobj (members : List (String × JsonVal)) : JsonVal
deriving Repr

/-- An optional object member: present exactly when the field is set. -/
def optField (k : String) : Option JsonVal → List (String × JsonVal)
  | some j => [(k, j)]
  | none => []

/-- The object members `json.dumps` writes for one unified player record:
the primary fields always, each enrichment field only when set. -/
def playerMembers (p : Player) : List (String × JsonVal) :=
  ("name", .jstr p.name) :: ("position", .jstr p.position) ::
  ("team", .jstr p.team) :: ("adp", .jnum p.adp) ::
  (optField "my_guy" (p.my_guy.map JsonVal.jbool) ++
    (optField "rank" (p.rank.map JsonVal.jint) ++
      (optField "andy" (p.andy.map JsonVal.jint) ++
        (optField "mike" (p.mike.map JsonVal.jint) ++
          (optField "jason" (p.jason.map JsonVal.jint) ++
            (optField "depth_order" (p.depth_order.map JsonVal.jint) ++
              optField "depth_display_order"
                (p.depth_display_order.map JsonVal.jint)))))))

/-- Encode one unified player record as the JSON object `json.dumps` writes
for it. -/
def Player.toJson (p : Player) : JsonVal :=
  .jobj (playerMembers p)

/-- Member lookup in a JSON object. -/
def jLookup (l : List (String × JsonVal)) (k : String) : Option JsonVal :=
  (l.find? (fun kv => kv.1 = k)).map (fun kv => kv.2)

/-- Read a required string member. -/
def jStr (l : List (String × JsonVal)) (k : String) : Option String :=
  match jLookup l k with
  | some (.jstr s) => some s
  | _ => none

/-- Read a required float member. -/
def jNum (l : List (String × JsonVal)) (k : String) : Option Rat :=
  match jLookup l k with
  | some (.jnum q) => some q
  | _ => none

/-- Read an optional boolean member: an absent key is an unset field. -/
def jOptBool (l : List (String × JsonVal)) (k : String) : Option (Option Bool) :=
  match jLookup l k with
  | none => some none
  | some (.jbool b) => some (some b)
  | some _ => none

/-- Read an optional integer member: an absent key is an unset field. -/
def jOptInt (l : List (String × JsonVal)) (k : String) : Option (Option Int) :=
  match jLookup l k with
  | none => some none
  | some (.jint n) => some (some n)
  | some _ => none

/-- Decode one unified player record from its snapshot object. -/
def Player.fromJson : JsonVal → Option Player
  | .jobj l => do
    let name ← jStr l "name"
    let position ← jStr l "position"
    let team ← jStr l "team"
    let adp ← jNum l "adp"
    let my_guy ← jOptBool l "my_guy"
    let rank ← jOptInt l "rank"
    let andy ← jOptInt l "andy"
    let mike ← jOptInt l "mike"
    let jason ← jOptInt l "jason"
    let depth_order ← jOptInt l "depth_order"
    let depth_display_order ← jOptInt l "depth_display_order"
    some { name := name, position := position, team := team, adp := adp,
           my_guy := my_guy, rank := rank, andy := andy, mike := mike,
           jason := jason, depth_order := depth_order,
           depth_display_order := depth_display_order }
  | _ => none

/-- Encode the merged dataset as the cache snapshot document (line 358). -/
def encodePMap (m : PMap) : JsonVal :=
  .jobj (m.map (fun kv => (kv.1, kv.2.toJson)))

/-- Decode the member list of a snapshot document, entry by entry. -/
def decodeMembers : List (String × JsonVal) → Option PMap
  | [] => some []
  | kv :: rest => do
    let p ← Player.fromJson kv.2
    let r ← decodeMembers rest
    some ((kv.1, p) :: r)

/-- Decode a cache snapshot document back into the mapping (line 345). -/
def decodePMap : JsonVal → Option PMap
  | .jobj l => decodeMembers l
  | _ => none

/-- The cache data the secondary ingestor ends up with from the snapshot
file: its contents when it exists and the clear flag is unset, else nothing
(lines 205-214). -/
def sdioCacheData (env : SdioEnv) : List SdioPlayer :=
  match env.cacheFile with
  | some cached => if env.clear_sd = false then cached else []
  | none => []

/-- The log lines the cache-loading step of the secondary ingestor emits
(the banner is printed whenever the snapshot file exists and the clear flag
is unset, lines 208-210). -/
def sdioCacheLogs (env : SdioEnv) : List String :=
  match env.cacheFile with
  | some _ =>
    if env.clear_sd = false
    then ["======= LOADING SPORTSDATA.IO FROM CACHE (clear with flag -csd) ======="]
    else []
  | none => []

/-! ### Map-only views of the folds (the log component of each loop never
feeds back into the mapping, so the mapping component is a fold of its own) -/

/-- The mapping component of one primary loop iteration. -/
def adpStepM (m : PMap) (player : AdpPlayer) : PMap :=
  dictSet m (normalizeName player.name) player.toPlayer

/-- The mapping component of the whole primary loop. -/
def adpM (ps : List AdpPlayer) (m : PMap) : PMap :=
  ps.foldl adpStepM m

/-- The mapping component of one ranking-row iteration. -/
def applyRowM (m : PMap) (row : CsvRow) : PMap :=
  (applyRow m [] row).1

/-- The mapping component of one ranking-file iteration. -/
def rankFileM (m : PMap) (file : Option (List CsvRow)) : PMap :=
  match file with
  | none => m
  | some rows => rows.foldl applyRowM m

/-- The mapping component of the whole ranking ingestor. -/
def rankingsM (files : List (Option (List CsvRow))) (m : PMap) : PMap :=
  files.foldl rankFileM m

/-- The records of the mapping whose lowercased position is `b`, in
insertion order: the pre-sort content of bucket `b`. -/
def posFilter (b : String) (m : PMap) : List Player :=
  (m.map Prod.snd).filter (fun p => pyLower p.position = b)

instance : IsTotal Player (fun a b => a.adp ≤ b.adp) :=
  ⟨fun a b => le_total a.adp b.adp⟩

instance : IsTrans Player (fun a b => a.adp ≤ b.adp) :=
  ⟨fun _ _ _ h1 h2 => le_trans h1 h2⟩

/-! ### Concrete sample data used by witnesses and counterexamples -/

/-- A primary-source player object. -/
def samplePrimary : AdpPlayer :=
  { name := "Josh Allen", position := "QB", team := "BUF", adp := 2 }

/-- The record the sample player starts as. -/
def sampleRecord : Player := samplePrimary.toPlayer

/-- A one-player primary mapping. -/
def sampleMap : PMap := [("josh_allen", sampleRecord)]

/-- A ranking row whose `Rank` parses but whose `Andy` does not. -/
def sampleRow : CsvRow :=
  { Name := "Josh Allen", Rank := "1", Andy := "N/A", Mike := "2", Jason := "3" }

/-- A secondary depth-chart entry for the sample player. -/
def sampleSdio : SdioPlayer :=
  { Name := "Josh Allen", DepthOrder := 1, DepthDisplayOrder := 2 }

/-- A secondary environment with no credential but a populated snapshot. -/
def sampleEnvNoKeyCache : SdioEnv :=
  { cacheFile := some [sampleSdio], clear_sd := false,
    sports_data_api_key := none,
    response := { ok := true, json := [], text := "" } }

/-- A secondary environment with no credential and no snapshot file. -/
def sampleEnvNoKeyNoCache : SdioEnv :=
  { cacheFile := none, clear_sd := false,
    sports_data_api_key := none,
    response := { ok := true, json := [], text := "" } }

/-- A secondary environment with a credential, no snapshot, and a failing
network response. -/
def sampleEnvApiFail : SdioEnv :=
  { cacheFile := none, clear_sd := false,
    sports_data_api_key := some "k",
    response := { ok := false, json := [], text := "denied" } }

/-- A successful primary response carrying the sample player. -/
def sampleAdpResponse : AdpResponse :=
  { ok := true, json := { status := some "Success", players := [samplePrimary] },
    text := "" }

/-- A successful primary response with two players normalizing to the same
identity key. -/
def sampleDupResponse : AdpResponse :=
  { ok := true,
    json := { status := some "Success",
              players := [{ name := "Travis Etienne Jr.", position := "RB",
                            team := "JAX", adp := 30 },
                          { name := "Travis Etienne", position := "RB",
                            team := "JAX", adp := 31 }] },
    text := "" }

/-- The sample record after the cache-driven depth enrichment. -/
def sampleEnriched : Player :=
  { name := "Josh Allen", position := "QB", team := "BUF", adp := 2,
    depth_order := some 1, depth_display_order := some 2 }

example : normalizeName "Travis Etienne Jr." = "travis_etienne" := rfl
example : normalizeName "Josh Allen" = "josh_allen" := rfl
example : normalizeName "Amon-Ra St. Brown" = "amon-ra_st_brown" := rfl
example : pyInt "1" = some 1 := by decide
example : pyInt " -42 " = some (-42) := by decide
example : pyInt "N/A" = none := by decide
example : pyInt "" = none := by decide

/-! ### Dictionary lemmas -/

theorem lookupDict_dictSet (m : PMap) (k k' : String) (v : Player) :
    lookupDict (dictSet m k v) k' = if k' = k then some v else lookupDict m k' := by
  induction m with
  | nil =>
    by_cases h : k' = k
    · simp [dictSet, lookupDict, List.find?, h]
    · simp [dictSet, lookupDict, List.find?, h, Ne.symm h]
  | cons kv rest ih =>
    by_cases h1 : kv.1 = k <;> by_cases h2 : k' = k <;>
      by_cases h3 : kv.1 = k' <;>
      simp_all [dictSet, lookupDict, List.find?]

theorem lookupDict_dictModify (m : PMap) (k k' : String) (f : Player → Player) :
    lookupDict (dictModify m k f) k' =
      if k' = k then (lookupDict m k').map f else lookupDict m k' := by
  induction m with
  | nil => by_cases h : k' = k <;> simp [dictModify, lookupDict, List.find?, h]
  | cons kv rest ih =>
    by_cases h1 : kv.1 = k <;> by_cases h2 : k' = k <;>
      by_cases h3 : kv.1 = k' <;>
      simp_all [dictModify, lookupDict, List.find?]

theorem containsKey_eq_isSome (m : PMap) (k : String) :
    containsKey m k = (lookupDict m k).isSome := by
  induction m with
  | nil => rfl
  | cons kv rest ih =>
    by_cases h : kv.1 = k <;> simp_all [containsKey, lookupDict, List.find?]

theorem mapKeys_dictModify (m : PMap) (k : String) (f : Player → Player) :
    mapKeys (dictModify m k f) = mapKeys m := by
  induction m with
  | nil => rfl
  | cons kv rest ih =>
    by_cases h : kv.1 = k <;> simp_all [mapKeys, dictModify]

theorem containsKey_dictSet_self (m : PMap) (k : String) (v : Player) :
    containsKey (dictSet m k v) k = true := by
  simp [containsKey_eq_isSome, lookupDict_dictSet]

theorem containsKey_dictSet_mono (m : PMap) (k k' : String) (v : Player)
    (h : containsKey m k' = true) : containsKey (dictSet m k v) k' = true := by
  by_cases hk : k' = k <;>
    simp_all [containsKey_eq_isSome, lookupDict_dictSet]

/-! ### The name normalizer matches the spec transform (C2) -/

theorem charTransform_eq (l : List Char) :
    ((l.map (fun c => if c = ' ' then '_' else c)).filter (fun c => c ≠ '.')).map Char.toLower
      = l.foldr (fun c acc => if c = '.' then acc
                              else (if c = ' ' then '_' else c.toLower) :: acc) [] := by
  induction l with
  | nil => rfl
  | cons c l ih =>
    simp only [ne_eq, decide_not] at ih ⊢
    simp only [List.map_cons, List.filter_cons, List.foldr_cons]
    by_cases h1 : c = '.'
    · subst h1
      simp [ih]
    · by_cases h2 : c = ' '
      · subst h2
        simp [ih, h1, (by decide : Char.toLower '_' = '_')]
      · simp [ih, h1, h2]

theorem default_key_eq_spec (s : String) :
    pyLower (pyStripDots (pyUnderscoreSpaces s)) = specTransform s := by
  unfold pyLower pyStripDots pyUnderscoreSpaces specTransform
  exact congrArg String.mk (charTransform_eq s.data)

/-- C2: for every display name, the shared normalization returns the alias
table entry when the name is literally a key of the table, and otherwise the
default transform (periods stripped, spaces to underscores, lowercased); it
is a total function. -/
theorem normalizer_alias_else_default (name : String) :
    (∀ k, aliasLookup name = some k → normalizeName name = k) ∧
    (aliasLookup name = none → normalizeName name = specTransform name) := by
  constructor
  · intro k h
    simp [normalizeName, h]
  · intro h
    simp [normalizeName, h, default_key_eq_spec]

/-- Witness for C2: one aliased name and one unaliased name. -/
theorem normalizer_alias_else_default_witness :
    normalizeName "Travis Etienne Jr." = "travis_etienne" ∧
    normalizeName "Patrick Mahomes II" = specTransform "Patrick Mahomes II" :=
  ⟨(normalizer_alias_else_default "Travis Etienne Jr.").1 "travis_etienne" rfl,
   (normalizer_alias_else_default "Patrick Mahomes II").2 rfl⟩

/-! ### The mapping component of each loop is a fold of the map-only step -/

theorem applyRow_fst (m : PMap) (lg : List String) (row : CsvRow) :
    (applyRow m lg row).1 = applyRowM m row := by
  simp only [applyRow, applyRowM]
  cases lookupDict m (normalizeName row.Name) <;> rfl

theorem rows_fold_fst (rows : List CsvRow) (acc : PMap × List String) :
    (rows.foldl (fun a row => applyRow a.1 a.2 row) acc).1 =
      rows.foldl applyRowM acc.1 := by
  induction rows generalizing acc with
  | nil => rfl
  | cons row rows ih =>
    rw [List.foldl_cons, List.foldl_cons, ih, applyRow_fst]

theorem rankings_fst (files : List (Option (List CsvRow))) (m : PMap) :
    (add_player_rankings files m).1 = rankingsM files m := by
  suffices h : ∀ (acc : PMap × List String),
      (files.foldl
        (fun acc file =>
          match file with
          | none => (acc.1, acc.2 ++ ["Ranking File Does Not Exist"])
          | some rows => rows.foldl (fun a row => applyRow a.1 a.2 row) acc)
        acc).1 = files.foldl rankFileM acc.1 by
    exact h (m, [])
  induction files with
  | nil => intro acc; rfl
  | cons file files ih =>
    intro acc
    rw [List.foldl_cons, List.foldl_cons, ih]
    cases file with
    | none => rfl
    | some rows => simp [rankFileM, rows_fold_fst]

theorem adp_fold_fst (ps : List AdpPlayer) (acc : PMap × List String) :
    (ps.foldl adpStep acc).1 = adpM ps acc.1 := by
  induction ps generalizing acc with
  | nil => rfl
  | cons p ps ih =>
    rw [List.foldl_cons, adpM, List.foldl_cons, ← adpM, ih]
    rfl

/-! ### Generic fold lemmas -/

theorem foldl_keys_preserve {α : Type} (step : PMap → α → PMap)
    (hstep : ∀ m x, mapKeys (step m x) = mapKeys m) :
    ∀ (xs : List α) (m : PMap), mapKeys (xs.foldl step m) = mapKeys m := by
  intro xs
  induction xs with
  | nil => intro m; rfl
  | cons x xs ih =>
    intro m
    rw [List.foldl_cons, ih, hstep]

theorem foldl_lookup_preserve {α : Type} (step : PMap → α → PMap)
    (R : Player → Player → Prop)
    (hrefl : ∀ p, R p p)
    (htrans : ∀ p q r, R p q → R q r → R p r)
    (hstep : ∀ m x k p', lookupDict (step m x) k = some p' →
       ∃ p, lookupDict m k = some p ∧ R p p') :
    ∀ (xs : List α) (m : PMap) (k : String) (p' : Player),
      lookupDict (xs.foldl step m) k = some p' →
      ∃ p, lookupDict m k = some p ∧ R p p' := by
  intro xs
  induction xs with
  | nil => exact fun m k p' h => ⟨p', h, hrefl p'⟩
  | cons x xs ih =>
    intro m k p' h
    rw [List.foldl_cons] at h
    obtain ⟨q, hq, hR⟩ := ih (step m x) k p' h
    obtain ⟨p, hp, hR2⟩ := hstep m x k q hq
    exact ⟨p, hp, htrans _ _ _ hR2 hR⟩

theorem foldl_lookup_invariant {α : Type} (step : PMap → α → PMap) (k : String)
    (P : α → Prop)
    (hstep : ∀ m x, P x → lookupDict (step m x) k = lookupDict m k) :
    ∀ (xs : List α) (m : PMap), (∀ x ∈ xs, P x) →
      lookupDict (xs.foldl step m) k = lookupDict m k := by
  intro xs
  induction xs with
  | nil => intro m _; rfl
  | cons x xs ih =>
    intro m hall
    rw [List.foldl_cons, ih (step m x) (fun y hy => hall y (List.mem_cons_of_mem x hy)),
        hstep m x (hall x (List.mem_cons_self x xs))]

/-! ### Keys preservation for the enrichers -/

theorem mapKeys_applyRowM (m : PMap) (row : CsvRow) :
    mapKeys (applyRowM m row) = mapKeys m := by
  simp only [applyRowM, applyRow]
  cases lookupDict m (normalizeName row.Name) with
  | none => rfl
  | some p => simp [mapKeys_dictModify]

theorem mapKeys_rankFileM (m : PMap) (file : Option (List CsvRow)) :
    mapKeys (rankFileM m file) = mapKeys m := by
  cases file with
  | none => rfl
  | some rows => exact foldl_keys_preserve applyRowM mapKeys_applyRowM rows m

theorem mapKeys_rankings (files : List (Option (List CsvRow))) (m : PMap) :
    mapKeys (add_player_rankings files m).1 = mapKeys m := by
  rw [rankings_fst]
  exact foldl_keys_preserve rankFileM mapKeys_rankFileM files m

theorem mapKeys_depthStep (m : PMap) (player : SdioPlayer) :
    mapKeys (depthStep m player) = mapKeys m := by
  simp only [depthStep]
  split
  · exact mapKeys_dictModify _ _ _
  · rfl

theorem mapKeys_applyDepth (sdio : List SdioPlayer) (m : PMap) :
    mapKeys (applyDepth sdio m) = mapKeys m :=
  foldl_keys_preserve depthStep mapKeys_depthStep sdio m

/-! ### A branch-explicit form of the secondary ingestor -/

theorem get_sportsdataio_data_eq (env : SdioEnv) (m : PMap) :
    get_sportsdataio_data env m =
      if (sdioCacheData env).length < 1 then
        if env.sports_data_api_key = none then
          Except.ok (m, sdioCacheLogs env ++ ["SportsData.IO Key is not defined"])
        else
          if env.response.ok then
            if env.response.json.length > 0 then
              Except.ok (applyDepth env.response.json m, sdioCacheLogs env)
            else
              Except.ok (m, sdioCacheLogs env ++ ["No SportsData.IO Data loaded"])
          else Except.error "Bad SportData.IO API Call"
      else Except.ok (applyDepth (sdioCacheData env) m, sdioCacheLogs env) := by
  obtain ⟨cf, cs, key, resp⟩ := env
  cases cf <;> cases cs <;> cases key <;> rfl

/-- C1: merging is primary-source-gated.  The ranking ingestor and the
secondary ingestor never create a new entry: the key set of the accumulated
mapping is unchanged by both, so every player of the final board originates
from the primary source. -/
theorem merge_primary_gated :
    (∀ files m, mapKeys (add_player_rankings files m).1 = mapKeys m) ∧
    (∀ env m r, get_sportsdataio_data env m = Except.ok r →
       mapKeys r.1 = mapKeys m) := by
  refine ⟨mapKeys_rankings, ?_⟩
  intro env m r h
  rw [get_sportsdataio_data_eq] at h
  split at h
  · split at h
    · cases h
      rfl
    · split at h
      · split at h
        · cases h
          exact mapKeys_applyDepth _ _
        · cases h
          rfl
      · cases h
  · cases h
    exact mapKeys_applyDepth _ _

/-- Witness for C1 at concrete inputs: one ranking row and one cache-driven
secondary run on the one-player sample mapping. -/
theorem merge_primary_gated_witness :
    mapKeys (add_player_rankings [some [sampleRow]] sampleMap).1 = mapKeys sampleMap ∧
    mapKeys ([("josh_allen", sampleEnriched)] : PMap) = mapKeys sampleMap :=
  ⟨merge_primary_gated.1 [some [sampleRow]] sampleMap,
   merge_primary_gated.2 sampleEnvNoKeyCache sampleMap
     ([("josh_allen", sampleEnriched)],
      ["======= LOADING SPORTSDATA.IO FROM CACHE (clear with flag -csd) ======="]) rfl⟩

/-! ### Frame lemmas for the enrichers -/

theorem rowUpdate_frame (k : String) (row : CsvRow) (p : Player) :
    ((rowUpdate k row p).1).name = p.name ∧
    ((rowUpdate k row p).1).position = p.position ∧
    ((rowUpdate k row p).1).team = p.team ∧
    ((rowUpdate k row p).1).adp = p.adp ∧
    ((rowUpdate k row p).1).depth_order = p.depth_order ∧
    ((rowUpdate k row p).1).depth_display_order = p.depth_display_order ∧
    ((rowUpdate k row p).1).my_guy = some (MY_GUYS.contains k) := by
  unfold rowUpdate
  cases pyInt row.Rank <;> cases pyInt row.Andy <;>
    cases pyInt row.Mike <;> cases pyInt row.Jason <;> simp

theorem applyRowM_lookup (m : PMap) (row : CsvRow) (k : String) :
    lookupDict (applyRowM m row) k =
      if k = normalizeName row.Name then
        (lookupDict m k).map (fun p => (rowUpdate k row p).1)
      else lookupDict m k := by
  simp only [applyRowM, applyRow]
  cases hl : lookupDict m (normalizeName row.Name) with
  | none =>
    by_cases hk : k = normalizeName row.Name
    · rw [if_pos hk, hk, hl]
      rfl
    · rw [if_neg hk]
  | some p =>
    by_cases hk : k = normalizeName row.Name
    · simp only [lookupDict_dictModify, if_pos hk, hk, hl]
      rfl
    · simp only [lookupDict_dictModify, if_neg hk]

theorem rankings_lookup_exists (files : List (Option (List CsvRow))) (m : PMap)
    (k : String) (p' : Player)
    (h : lookupDict (add_player_rankings files m).1 k = some p') :
    ∃ p, lookupDict m k = some p ∧
      p'.name = p.name ∧ p'.position = p.position ∧ p'.team = p.team ∧
      p'.adp = p.adp ∧ p'.depth_order = p.depth_order ∧
      p'.depth_display_order = p.depth_display_order := by
  rw [rankings_fst] at h
  refine foldl_lookup_preserve rankFileM
    (fun p q => q.name = p.name ∧ q.position = p.position ∧ q.team = p.team ∧
      q.adp = p.adp ∧ q.depth_order = p.depth_order ∧
      q.depth_display_order = p.depth_display_order)
    (fun p => ⟨rfl, rfl, rfl, rfl, rfl, rfl⟩)
    (fun p q r h1 h2 => ⟨h2.1.trans h1.1, h2.2.1.trans h1.2.1,
      h2.2.2.1.trans h1.2.2.1, h2.2.2.2.1.trans h1.2.2.2.1,
      h2.2.2.2.2.1.trans h1.2.2.2.2.1, h2.2.2.2.2.2.trans h1.2.2.2.2.2⟩)
    ?_ files m k p' h
  intro m0 file k0 q' hq
  cases file with
  | none => exact ⟨q', hq, rfl, rfl, rfl, rfl, rfl, rfl⟩
  | some rows =>
    refine foldl_lookup_preserve applyRowM
      (fun p q => q.name = p.name ∧ q.position = p.position ∧ q.team = p.team ∧
        q.adp = p.adp ∧ q.depth_order = p.depth_order ∧
        q.depth_display_order = p.depth_display_order)
      (fun p => ⟨rfl, rfl, rfl, rfl, rfl, rfl⟩)
      (fun p q r h1 h2 => ⟨h2.1.trans h1.1, h2.2.1.trans h1.2.1,
        h2.2.2.1.trans h1.2.2.1, h2.2.2.2.1.trans h1.2.2.2.1,
        h2.2.2.2.2.1.trans h1.2.2.2.2.1, h2.2.2.2.2.2.trans h1.2.2.2.2.2⟩)
      ?_ rows m0 k0 q' hq
    intro m1 row k1 r' hr
    rw [applyRowM_lookup] at hr
    by_cases hk : k1 = normalizeName row.Name
    · rw [if_pos hk] at hr
      cases hl : lookupDict m1 k1 with
      | none => rw [hl] at hr; cases hr
      | some p0 =>
        rw [hl] at hr
        rw [show (some p0).map (fun p => (rowUpdate k1 row p).1) =
              some ((rowUpdate k1 row p0).1) from rfl] at hr
        obtain ⟨f1, f2, f3, f4, f5, f6, _⟩ := rowUpdate_frame k1 row p0
        refine ⟨p0, rfl, ?_⟩
        rw [← Option.some_inj.mp hr]
        exact ⟨f1, f2, f3, f4, f5, f6⟩
    · rw [if_neg hk] at hr
      exact ⟨r', hr, rfl, rfl, rfl, rfl, rfl, rfl⟩

theorem rankings_unmatched_lookup (files : List (Option (List CsvRow)))
    (m : PMap) (k : String)
    (hk : ∀ rows, some rows ∈ files → ∀ row ∈ rows, normalizeName row.Name ≠ k) :
    lookupDict (add_player_rankings files m).1 k = lookupDict m k := by
  rw [rankings_fst]
  have hstep : ∀ (m0 : PMap) (file : Option (List CsvRow)),
      (∀ rows, file = some rows → ∀ row ∈ rows, normalizeName row.Name ≠ k) →
      lookupDict (rankFileM m0 file) k = lookupDict m0 k := by
    intro m0 file hP
    cases file with
    | none => rfl
    | some rows =>
      have hrow : ∀ (m1 : PMap) (row : CsvRow), normalizeName row.Name ≠ k →
          lookupDict (applyRowM m1 row) k = lookupDict m1 k := by
        intro m1 row hne
        rw [applyRowM_lookup, if_neg (fun h => hne h.symm)]
      exact foldl_lookup_invariant applyRowM k (fun row => normalizeName row.Name ≠ k)
        hrow rows m0 (hP rows rfl)
  have hall : ∀ file ∈ files,
      ∀ rows, file = some rows → ∀ row ∈ rows, normalizeName row.Name ≠ k := by
    intro file hf rows hrow
    exact hk rows (hrow ▸ hf)
  exact foldl_lookup_invariant rankFileM k _ hstep files m hall

theorem depthStep_lookup_exists (m : PMap) (player : SdioPlayer) (k : String)
    (p' : Player) (h : lookupDict (depthStep m player) k = some p') :
    ∃ p, lookupDict m k = some p ∧
      p'.name = p.name ∧ p'.position = p.position ∧ p'.team = p.team ∧
      p'.adp = p.adp ∧ p'.my_guy = p.my_guy ∧ p'.rank = p.rank ∧
      p'.andy = p.andy ∧ p'.mike = p.mike ∧ p'.jason = p.jason := by
  simp only [depthStep] at h
  split at h
  · rw [lookupDict_dictModify] at h
    by_cases hk : k = normalizeName player.Name
    · rw [if_pos hk] at h
      cases hl : lookupDict m k with
      | none => rw [hl] at h; cases h
      | some p0 =>
        rw [hl] at h
        refine ⟨p0, rfl, ?_⟩
        rw [← Option.some_inj.mp h]
        exact ⟨rfl, rfl, rfl, rfl, rfl, rfl, rfl, rfl, rfl⟩
    · rw [if_neg hk] at h
      exact ⟨p', h, rfl, rfl, rfl, rfl, rfl, rfl, rfl, rfl, rfl⟩
  · exact ⟨p', h, rfl, rfl, rfl, rfl, rfl, rfl, rfl, rfl, rfl⟩

theorem applyDepth_lookup_exists (sdio : List SdioPlayer) (m : PMap)
    (k : String) (p' : Player)
    (h : lookupDict (applyDepth sdio m) k = some p') :
    ∃ p, lookupDict m k = some p ∧
      p'.name = p.name ∧ p'.position = p.position ∧ p'.team = p.team ∧
      p'.adp = p.adp ∧ p'.my_guy = p.my_guy ∧ p'.rank = p.rank ∧
      p'.andy = p.andy ∧ p'.mike = p.mike ∧ p'.jason = p.jason := by
  refine foldl_lookup_preserve depthStep
    (fun p q => q.name = p.name ∧ q.position = p.position ∧ q.team = p.team ∧
      q.adp = p.adp ∧ q.my_guy = p.my_guy ∧ q.rank = p.rank ∧
      q.andy = p.andy ∧ q.mike = p.mike ∧ q.jason = p.jason)
    (fun p => ⟨rfl, rfl, rfl, rfl, rfl, rfl, rfl, rfl, rfl⟩)
    (fun p q r h1 h2 => ⟨h2.1.trans h1.1, h2.2.1.trans h1.2.1,
      h2.2.2.1.trans h1.2.2.1, h2.2.2.2.1.trans h1.2.2.2.1,
      h2.2.2.2.2.1.trans h1.2.2.2.2.1, h2.2.2.2.2.2.1.trans h1.2.2.2.2.2.1,
      h2.2.2.2.2.2.2.1.trans h1.2.2.2.2.2.2.1,
      h2.2.2.2.2.2.2.2.1.trans h1.2.2.2.2.2.2.2.1,
      h2.2.2.2.2.2.2.2.2.trans h1.2.2.2.2.2.2.2.2⟩)
    (fun m0 x k0 q hq => depthStep_lookup_exists m0 x k0 q hq)
    sdio m k p' h

theorem sdio_lookup_exists (env : SdioEnv) (m : PMap) (r : PMap × List String)
    (k : String) (p' : Player)
    (hok : get_sportsdataio_data env m = Except.ok r)
    (h : lookupDict r.1 k = some p') :
    ∃ p, lookupDict m k = some p ∧
      p'.name = p.name ∧ p'.position = p.position ∧ p'.team = p.team ∧
      p'.adp = p.adp ∧ p'.my_guy = p.my_guy ∧ p'.rank = p.rank ∧
      p'.andy = p.andy ∧ p'.mike = p.mike ∧ p'.jason = p.jason := by
  rw [get_sportsdataio_data_eq] at hok
  split at hok
  · split at hok
    · cases hok
      exact ⟨p', h, rfl, rfl, rfl, rfl, rfl, rfl, rfl, rfl, rfl⟩
    · split at hok
      · split at hok
        · cases hok
          exact applyDepth_lookup_exists _ _ _ _ h
        · cases hok
          exact ⟨p', h, rfl, rfl, rfl, rfl, rfl, rfl, rfl, rfl, rfl⟩
      · cases hok
  · cases hok
    exact applyDepth_lookup_exists _ _ _ _ h

/-! ### The primary mapping never carries a favorite flag -/

theorem adpM_lookup_my_guy :
    ∀ (ps : List AdpPlayer) (m : PMap),
      (∀ k p, lookupDict m k = some p → p.my_guy = none) →
      ∀ k p, lookupDict (adpM ps m) k = some p → p.my_guy = none := by
  intro ps
  induction ps with
  | nil => exact fun m hm => hm
  | cons q ps ih =>
    intro m hm
    simp only [adpM, List.foldl_cons]
    apply ih
    intro k p hp
    rw [adpStepM, lookupDict_dictSet] at hp
    by_cases hk : k = normalizeName q.name
    · rw [if_pos hk] at hp
      rw [← Option.some_inj.mp hp]
      rfl
    · rw [if_neg hk] at hp
      exact hm k p hp

theorem get_adp_data_ok_fst (resp : AdpResponse) (m1 : PMap) (lg1 : List String)
    (h : get_adp_data resp = Except.ok (m1, lg1)) :
    m1 = adpM resp.json.players [] := by
  unfold get_adp_data at h
  split at h
  · split at h
    · injection h with h1
      calc m1 = (resp.json.players.foldl adpStep ([], [])).1 :=
            (congrArg Prod.fst h1).symm
        _ = adpM resp.json.players [] := adp_fold_fst _ _
    · cases h
  · cases h

theorem buildDataset_ok (resp : AdpResponse) (files : List (Option (List CsvRow)))
    (env : SdioEnv) (m : PMap) (lg : List String)
    (h : buildDataset resp files env = Except.ok (m, lg)) :
    ∃ m1 lg1 r2, get_adp_data resp = Except.ok (m1, lg1) ∧
      get_sportsdataio_data env (add_player_rankings files m1).1 = Except.ok r2 ∧
      m = r2.1 := by
  cases hadp : get_adp_data resp with
  | error e => simp [buildDataset, hadp] at h
  | ok pr =>
    obtain ⟨m1, lg1⟩ := pr
    cases hs : get_sportsdataio_data env (add_player_rankings files m1).1 with
    | error e => simp [buildDataset, hadp, hs] at h
    | ok r2 =>
      simp only [buildDataset, hadp, hs, Except.ok.injEq, Prod.mk.injEq] at h
      exact ⟨m1, lg1, r2, rfl, hs, h.1.symm⟩

/-- C10: the enrichment steps never remove a key (with C1) and never touch
the primary-source fields of an existing record; the ranking ingestor leaves
depth fields alone, the secondary ingestor leaves ranking fields alone, a
key no ranking row matches is left entirely unchanged, and through the whole
pipeline a record never matched by any ranking row carries no favorite flag
at all. -/
theorem enrichers_touch_only_enrichment_fields :
    (∀ files m k p p',
       lookupDict m k = some p →
       lookupDict (add_player_rankings files m).1 k = some p' →
       p'.name = p.name ∧ p'.position = p.position ∧ p'.team = p.team ∧
       p'.adp = p.adp ∧ p'.depth_order = p.depth_order ∧
       p'.depth_display_order = p.depth_display_order) ∧
    (∀ files m k,
       (∀ rows, some rows ∈ files → ∀ row ∈ rows, normalizeName row.Name ≠ k) →
       lookupDict (add_player_rankings files m).1 k = lookupDict m k) ∧
    (∀ env m r k p p',
       get_sportsdataio_data env m = Except.ok r →
       lookupDict m k = some p → lookupDict r.1 k = some p' →
       p'.name = p.name ∧ p'.position = p.position ∧ p'.team = p.team ∧
       p'.adp = p.adp ∧ p'.my_guy = p.my_guy ∧ p'.rank = p.rank ∧
       p'.andy = p.andy ∧ p'.mike = p.mike ∧ p'.jason = p.jason) ∧
    (∀ resp files env m lg k p,
       buildDataset resp files env = Except.ok (m, lg) →
       (∀ rows, some rows ∈ files → ∀ row ∈ rows, normalizeName row.Name ≠ k) →
       lookupDict m k = some p → p.my_guy = none) := by
  refine ⟨?_, ?_, ?_, ?_⟩
  · intro files m k p p' hp hp'
    obtain ⟨p0, hp0, f⟩ := rankings_lookup_exists files m k p' hp'
    rw [hp] at hp0
    rw [← Option.some_inj.mp hp0] at f
    exact f
  · exact fun files m k hk => rankings_unmatched_lookup files m k hk
  · intro env m r k p p' hok hp hp'
    obtain ⟨p0, hp0, f⟩ := sdio_lookup_exists env m r k p' hok hp'
    rw [hp] at hp0
    rw [← Option.some_inj.mp hp0] at f
    exact f
  · intro resp files env m lg k p hbd hun hp
    obtain ⟨m1, lg1, r2, hadp, hs, hm⟩ := buildDataset_ok resp files env m lg hbd
    rw [hm] at hp
    obtain ⟨p1, hp1, f⟩ :=
      sdio_lookup_exists env (add_player_rankings files m1).1 r2 k p hs hp
    rw [rankings_unmatched_lookup files m1 k hun] at hp1
    have hmg : p1.my_guy = none := by
      have hstart : ∀ k p, lookupDict ([] : PMap) k = some p → p.my_guy = none := by
        intro k p hkp
        cases hkp
      exact adpM_lookup_my_guy resp.json.players [] hstart k p1
        (by rw [← get_adp_data_ok_fst resp m1 lg1 hadp]; exact hp1)
    exact f.2.2.2.2.1.trans hmg

/-- Witness for C10: the sample row enriches the sample record, and the
cache-driven secondary run preserves everything but the depth fields. -/
theorem enrichers_touch_only_enrichment_fields_witness :
    (sampleEnriched.name = sampleRecord.name ∧
     sampleEnriched.position = sampleRecord.position ∧
     sampleEnriched.team = sampleRecord.team ∧
     sampleEnriched.adp = sampleRecord.adp ∧
     sampleEnriched.my_guy = sampleRecord.my_guy ∧
     sampleEnriched.rank = sampleRecord.rank ∧
     sampleEnriched.andy = sampleRecord.andy ∧
     sampleEnriched.mike = sampleRecord.mike ∧
     sampleEnriched.jason = sampleRecord.jason) ∧
    lookupDict (add_player_rankings [none] sampleMap).1 "josh_allen" =
      lookupDict sampleMap "josh_allen" :=
  ⟨enrichers_touch_only_enrichment_fields.2.2.1 sampleEnvNoKeyCache sampleMap
     ([("josh_allen", sampleEnriched)],
      ["======= LOADING SPORTSDATA.IO FROM CACHE (clear with flag -csd) ======="])
     "josh_allen" sampleRecord sampleEnriched rfl rfl rfl,
   enrichers_touch_only_enrichment_fields.2.1 [none] sampleMap "josh_allen"
     (fun rows hrows => by simp at hrows)⟩

/-! ### C4: numeric-field parse failures -/

/-- Counterexample to C4 as stated: in a row whose `Rank` parses but whose
`Andy` does not, the failure is reported, yet `rank` is still set on the
matched record — the four assignments run sequentially inside one `try`
block, so the fields before the first failure are NOT left unset. -/
theorem rank_parse_failure_partial_set_cex :
    (add_player_rankings [some [sampleRow]] sampleMap).1 =
      [("josh_allen", { name := "Josh Allen", position := "QB", team := "BUF",
                        adp := 2, my_guy := some false, rank := some 1 })] ∧
    (add_player_rankings [some [sampleRow]] sampleMap).2 =
      ["Bad Values for Josh Allen"] ∧
    ({ name := "Josh Allen", position := "QB", team := "BUF", adp := 2,
       my_guy := some false, rank := some 1 } : Player).rank ≠ none :=
  ⟨rfl, rfl, by decide⟩

/-- C4 amended: for a matched row, a parse failure on one of the four
numeric fields is reported and leaves that field and all later ones (in the
order Rank, Andy, Mike, Jason) unchanged, while the earlier ones are set;
the favorite flag and every previously merged field remain intact. -/
theorem rank_row_parse_failure_behavior :
    (∀ m lg row p, lookupDict m (normalizeName row.Name) = some p →
       applyRow m lg row =
         (dictModify m (normalizeName row.Name)
            (fun _ => (rowUpdate (normalizeName row.Name) row p).1),
          lg ++ (rowUpdate (normalizeName row.Name) row p).2)) ∧
    (∀ k row p, pyInt row.Rank = none →
       rowUpdate k row p =
         ({ p with my_guy := some (MY_GUYS.contains k) },
          ["Bad Values for " ++ row.Name])) ∧
    (∀ k row p r, pyInt row.Rank = some r → pyInt row.Andy = none →
       rowUpdate k row p =
         ({ p with my_guy := some (MY_GUYS.contains k), rank := some r },
          ["Bad Values for " ++ row.Name])) ∧
    (∀ k row p r a, pyInt row.Rank = some r → pyInt row.Andy = some a →
       pyInt row.Mike = none →
       rowUpdate k row p =
         ({ p with my_guy := some (MY_GUYS.contains k), rank := some r,
                   andy := some a },
          ["Bad Values for " ++ row.Name])) ∧
    (∀ k row p r a b, pyInt row.Rank = some r → pyInt row.Andy = some a →
       pyInt row.Mike = some b → pyInt row.Jason = none →
       rowUpdate k row p =
         ({ p with my_guy := some (MY_GUYS.contains k), rank := some r,
                   andy := some a, mike := some b },
          ["Bad Values for " ++ row.Name])) ∧
    (∀ k row p r a b j, pyInt row.Rank = some r → pyInt row.Andy = some a →
       pyInt row.Mike = some b → pyInt row.Jason = some j →
       rowUpdate k row p =
         ({ p with my_guy := some (MY_GUYS.contains k), rank := some r,
                   andy := some a, mike := some b, jason := some j }, [])) := by
  refine ⟨?_, ?_, ?_, ?_, ?_, ?_⟩
  · intro m lg row p hp
    simp [applyRow, hp]
  · intro k row p h1
    simp [rowUpdate, h1]
  · intro k row p r h1 h2
    simp [rowUpdate, h1, h2]
  · intro k row p r a h1 h2 h3
    simp [rowUpdate, h1, h2, h3]
  · intro k row p r a b h1 h2 h3 h4
    simp [rowUpdate, h1, h2, h3, h4]
  · intro k row p r a b j h1 h2 h3 h4
    simp [rowUpdate, h1, h2, h3, h4]

/-- Witness for C4 amended: each failure position exercised on a concrete
row, plus the matched-row linkage on the sample mapping. -/
theorem rank_row_parse_failure_behavior_witness :
    rowUpdate "k" ⟨"A", "x", "2", "3", "4"⟩ sampleRecord =
      ({ sampleRecord with
          my_guy := some (MY_GUYS.contains "k") },
       ["Bad Values for A"]) ∧
    rowUpdate "k" ⟨"A", "1", "x", "3", "4"⟩ sampleRecord =
      ({ sampleRecord with
          my_guy := some (MY_GUYS.contains "k"),
          rank := some 1 }, ["Bad Values for A"]) ∧
    rowUpdate "k" ⟨"A", "1", "2", "x", "4"⟩ sampleRecord =
      ({ sampleRecord with
          my_guy := some (MY_GUYS.contains "k"),
          rank := some 1, andy := some 2 }, ["Bad Values for A"]) ∧
    rowUpdate "k" ⟨"A", "1", "2", "3", "x"⟩ sampleRecord =
      ({ sampleRecord with
          my_guy := some (MY_GUYS.contains "k"),
          rank := some 1, andy := some 2, mike := some 3 },
       ["Bad Values for A"]) ∧
    rowUpdate "k" ⟨"A", "1", "2", "3", "4"⟩ sampleRecord =
      ({ sampleRecord with
          my_guy := some (MY_GUYS.contains "k"),
          rank := some 1, andy := some 2, mike := some 3, jason := some 4 },
       []) ∧
    applyRow sampleMap [] sampleRow =
      (dictModify sampleMap (normalizeName "Josh Allen")
         (fun _ => (rowUpdate (normalizeName "Josh Allen") sampleRow sampleRecord).1),
       (rowUpdate (normalizeName "Josh Allen") sampleRow sampleRecord).2) :=
  ⟨rank_row_parse_failure_behavior.2.1 "k" ⟨"A", "x", "2", "3", "4"⟩ sampleRecord
     (by decide),
   rank_row_parse_failure_behavior.2.2.1 "k" ⟨"A", "1", "x", "3", "4"⟩ sampleRecord 1
     (by decide) (by decide),
   rank_row_parse_failure_behavior.2.2.2.1 "k" ⟨"A", "1", "2", "x", "4"⟩ sampleRecord
     1 2 (by decide) (by decide) (by decide),
   rank_row_parse_failure_behavior.2.2.2.2.1 "k" ⟨"A", "1", "2", "3", "x"⟩ sampleRecord
     1 2 3 (by decide) (by decide) (by decide) (by decide),
   rank_row_parse_failure_behavior.2.2.2.2.2 "k" ⟨"A", "1", "2", "3", "4"⟩ sampleRecord
     1 2 3 4 (by decide) (by decide) (by decide) (by decide),
   rank_row_parse_failure_behavior.1 sampleMap [] sampleRow sampleRecord rfl⟩

/-! ### C5: the secondary ingestor without a credential -/

/-- Counterexample to C5 as stated: with no credential configured but a
populated snapshot file present (and the clear flag unset), the secondary
ingestor still enriches the mapping from the cache, so the mapping does NOT
stay unchanged. -/
theorem sdio_no_credential_cache_enriches_cex :
    sampleEnvNoKeyCache.sports_data_api_key = none ∧
    get_sportsdataio_data sampleEnvNoKeyCache sampleMap =
      Except.ok ([("josh_allen", sampleEnriched)],
        ["======= LOADING SPORTSDATA.IO FROM CACHE (clear with flag -csd) ======="]) ∧
    ([("josh_allen", sampleEnriched)] : PMap) ≠ sampleMap :=
  ⟨rfl, rfl, by decide⟩

/-- C5 amended: when no credential is configured AND no non-empty snapshot
is loaded (file absent, or clear flag set, or cached data empty), the
secondary ingestor reports the skip and returns the accumulated mapping
completely unchanged, so the final board equals that of a run that never
invoked it. -/
theorem sdio_no_credential_no_cache_unchanged (env : SdioEnv) (m : PMap)
    (hkey : env.sports_data_api_key = none)
    (hcache : sdioCacheData env = []) :
    get_sportsdataio_data env m =
      Except.ok (m, sdioCacheLogs env ++ ["SportsData.IO Key is not defined"]) := by
  rw [get_sportsdataio_data_eq, hcache, if_pos (by simp), if_pos hkey]

/-- Witness for C5 amended: no credential, no snapshot file. -/
theorem sdio_no_credential_no_cache_unchanged_witness :
    get_sportsdataio_data sampleEnvNoKeyNoCache sampleMap =
      Except.ok (sampleMap,
        sdioCacheLogs sampleEnvNoKeyNoCache ++ ["SportsData.IO Key is not defined"]) :=
  sdio_no_credential_no_cache_unchanged sampleEnvNoKeyNoCache sampleMap rfl rfl

/-! ### C3: which conditions raise -/

/-- Counterexample to C3 as stated: the secondary ingestor raises on a
SECONDARY-source transport failure (source line 244), a third fatal
condition beyond the two primary-source ones the claim allows; here the
primary response is successful and a recoverable missing ranking file is
present, yet the run aborts with the secondary error. -/
theorem sdio_transport_failure_raises_cex :
    get_sportsdataio_data sampleEnvApiFail sampleMap =
      Except.error "Bad SportData.IO API Call" ∧
    buildDataset sampleAdpResponse [none] sampleEnvApiFail =
      Except.error "Bad SportData.IO API Call" :=
  ⟨rfl, rfl⟩

/-- C3 amended: the pipeline raises exactly for three fatal conditions —
primary transport failure, primary non-success status, and secondary
transport failure when the secondary ingestor actually calls the network
(no usable snapshot and a credential configured); every recoverable
condition (missing ranking file, unmatched row, malformed numeric field,
missing credential, duplicate key, unrecognized position) never raises. -/
theorem pipeline_raises_iff (resp : AdpResponse)
    (files : List (Option (List CsvRow))) (env : SdioEnv) :
    (∃ e, buildDataset resp files env = Except.error e) ↔
      (resp.ok = false ∨ resp.json.status.getD "bad" ≠ "Success" ∨
        ((sdioCacheData env).length < 1 ∧ env.sports_data_api_key ≠ none ∧
          env.response.ok = false)) := by
  constructor
  · rintro ⟨e, he⟩
    by_cases hok : resp.ok = true
    · by_cases hst : resp.json.status.getD "bad" = "Success"
      · right; right
        have hadp : get_adp_data resp =
            Except.ok (resp.json.players.foldl adpStep ([], [])) := by
          simp [get_adp_data, hok, hst]
        cases hs : get_sportsdataio_data env
            (add_player_rankings files
              (resp.json.players.foldl adpStep ([], [])).1).1 with
        | ok r2 => simp [buildDataset, hadp, hs] at he
        | error e2 =>
          rw [get_sportsdataio_data_eq] at hs
          split at hs
          · split at hs
            · cases hs
            · split at hs
              · split at hs
                · cases hs
                · cases hs
              · rename_i h1 h2 h3
                exact ⟨h1, fun hn => h2 hn, Bool.not_eq_true _ |>.mp h3⟩
          · cases hs
      · exact Or.inr (Or.inl hst)
    · exact Or.inl (Bool.not_eq_true _ |>.mp hok)
  · intro h
    by_cases hok : resp.ok = true
    · by_cases hst : resp.json.status.getD "bad" = "Success"
      · have hadp : get_adp_data resp =
            Except.ok (resp.json.players.foldl adpStep ([], [])) := by
          simp [get_adp_data, hok, hst]
        rcases h with h | h | ⟨h1, h2, h3⟩
        · rw [hok] at h; cases h
        · exact absurd hst h
        · refine ⟨"Bad SportData.IO API Call", ?_⟩
          have hs : get_sportsdataio_data env
              (add_player_rankings files
                (resp.json.players.foldl adpStep ([], [])).1).1 =
              Except.error "Bad SportData.IO API Call" := by
            rw [get_sportsdataio_data_eq, if_pos h1,
                if_neg (fun hn => h2 hn), if_neg (by simp [h3])]
          simp [buildDataset, hadp, hs]
      · exact ⟨"Bad ADP API Call Status",
          by simp [buildDataset, get_adp_data, hok, hst]⟩
    · exact ⟨"Bad ADP API Call", by simp [buildDataset, get_adp_data, hok]⟩

/-! ### C8: duplicate keys in the primary ingestor -/

theorem getLast?_cons_or {α : Type} :
    ∀ (l : List α) (a : α), (a :: l).getLast? = l.getLast?.or (some a)
  | [], a => rfl
  | b :: l, a => by
    rw [List.getLast?_cons_cons, getLast?_cons_or l b]
    cases l.getLast? <;> rfl

theorem adpM_lookup_lastWrite :
    ∀ (ps : List AdpPlayer) (m : PMap) (k : String),
      lookupDict (adpM ps m) k =
        (((ps.filter (fun p => normalizeName p.name = k)).getLast?).map
           AdpPlayer.toPlayer).or (lookupDict m k)
  | [], m, k => by simp [adpM]
  | q :: ps, m, k => by
    simp only [adpM, List.foldl_cons]
    rw [show ps.foldl adpStepM (adpStepM m q) = adpM ps (adpStepM m q) from rfl]
    rw [adpM_lookup_lastWrite ps (adpStepM m q) k]
    by_cases hk : normalizeName q.name = k
    · rw [List.filter_cons_of_pos (by simp [hk]), getLast?_cons_or]
      have hset : lookupDict (adpStepM m q) k = some q.toPlayer := by
        rw [adpStepM, lookupDict_dictSet, if_pos hk.symm]
      rw [hset]
      cases (ps.filter (fun p => normalizeName p.name = k)).getLast? <;> rfl
    · rw [List.filter_cons_of_neg (by simp [hk])]
      have hset : lookupDict (adpStepM m q) k = lookupDict m k := by
        rw [adpStepM, lookupDict_dictSet, if_neg (fun h => hk h.symm)]
      rw [hset]

theorem adpStep_logs_le (acc : PMap × List String) (q : AdpPlayer) :
    acc.2.length ≤ ((adpStep acc q).2).length := by
  simp only [adpStep]
  split <;> simp

theorem adp_logs_mono :
    ∀ (ps : List AdpPlayer) (acc : PMap × List String),
      acc.2.length ≤ ((ps.foldl adpStep acc).2).length
  | [], acc => le_refl _
  | q :: ps, acc => by
    rw [List.foldl_cons]
    exact le_trans (adpStep_logs_le acc q) (adp_logs_mono ps (adpStep acc q))

theorem adp_logs_dup :
    ∀ (ps : List AdpPlayer) (acc : PMap × List String) (k : String),
      (2 ≤ (ps.filter (fun p => normalizeName p.name = k)).length ∨
        (containsKey acc.1 k = true ∧
          1 ≤ (ps.filter (fun p => normalizeName p.name = k)).length)) →
      acc.2.length < ((ps.foldl adpStep acc).2).length := by
  intro ps
  induction ps with
  | nil =>
    intro acc k h
    rcases h with h | ⟨_, h⟩ <;> simp at h
  | cons q ps ih =>
    intro acc k h
    rw [List.foldl_cons]
    by_cases hk : normalizeName q.name = k
    · have hcont : containsKey (adpStep acc q).1 k = true := by
        have : (adpStep acc q).1 = dictSet acc.1 (normalizeName q.name) q.toPlayer := rfl
        rw [this, ← hk]
        exact containsKey_dictSet_self _ _ _
      rcases h with h | ⟨hc, h1⟩
      · rw [List.filter_cons_of_pos (by simp [hk])] at h
        have h1 : 1 ≤ (ps.filter (fun p => normalizeName p.name = k)).length := by
          simp only [List.length_cons] at h
          omega
        exact lt_of_le_of_lt (adpStep_logs_le acc q) (ih (adpStep acc q) k (Or.inr ⟨hcont, h1⟩))
      · have hstep : ((adpStep acc q).2).length = acc.2.length + 1 := by
          simp only [adpStep]
          rw [if_pos (hk.symm ▸ hc)]
          simp
        have := adp_logs_mono ps (adpStep acc q)
        omega
    · have hfilter :
          ((q :: ps).filter (fun p => normalizeName p.name = k)) =
            ps.filter (fun p => normalizeName p.name = k) :=
        List.filter_cons_of_neg (by simp [hk])
      have hcont : containsKey acc.1 k = true →
          containsKey (adpStep acc q).1 k = true := fun hc =>
        containsKey_dictSet_mono _ _ _ _ hc
      rcases h with h | ⟨hc, h1⟩
      · rw [hfilter] at h
        exact lt_of_le_of_lt (adpStep_logs_le acc q) (ih (adpStep acc q) k (Or.inl h))
      · rw [hfilter] at h1
        exact lt_of_le_of_lt (adpStep_logs_le acc q)
          (ih (adpStep acc q) k (Or.inr ⟨hcont hc, h1⟩))

/-- C8: in the primary ingestor, entries normalizing to an already-present
key overwrite the earlier occurrence (the resulting value for a key is the
LAST matching player of the response), the run is not aborted, and a
duplicate is reported in the log. -/
theorem primary_duplicate_overwrite (resp : AdpResponse)
    (hok : resp.ok = true) (hst : resp.json.status.getD "bad" = "Success") :
    ∃ m lg, get_adp_data resp = Except.ok (m, lg) ∧
      (∀ k, lookupDict m k =
        ((resp.json.players.filter (fun p => normalizeName p.name = k)).getLast?).map
          AdpPlayer.toPlayer) ∧
      (∀ k, 2 ≤ (resp.json.players.filter (fun p => normalizeName p.name = k)).length →
        lg ≠ []) := by
  refine ⟨(resp.json.players.foldl adpStep ([], [])).1,
          (resp.json.players.foldl adpStep ([], [])).2, ?_, ?_, ?_⟩
  · simp [get_adp_data, hok, hst]
  · intro k
    rw [adp_fold_fst resp.json.players ([], [])]
    rw [adpM_lookup_lastWrite resp.json.players [] k]
    cases ((resp.json.players.filter (fun p => normalizeName p.name = k)).getLast?) <;> rfl
  · intro k h2
    have hlt := adp_logs_dup resp.json.players ([], []) k (Or.inl h2)
    intro hnil
    rw [hnil] at hlt
    simp at hlt

/-- Witness for C8: both sample entries normalize to `travis_etienne`; the
conclusion is instantiated at the concrete duplicate response and the
resulting value is the later occurrence. -/
theorem primary_duplicate_overwrite_witness :
    (∃ m lg, get_adp_data sampleDupResponse = Except.ok (m, lg) ∧
      (∀ k, lookupDict m k =
        ((sampleDupResponse.json.players.filter
            (fun p => normalizeName p.name = k)).getLast?).map AdpPlayer.toPlayer) ∧
      (∀ k, 2 ≤ (sampleDupResponse.json.players.filter
            (fun p => normalizeName p.name = k)).length → lg ≠ [])) ∧
    ((sampleDupResponse.json.players.filter
        (fun p => normalizeName p.name = "travis_etienne")).getLast?).map
      AdpPlayer.toPlayer =
      some { name := "Travis Etienne", position := "RB", team := "JAX", adp := 31 } :=
  ⟨primary_duplicate_overwrite sampleDupResponse rfl rfl, rfl⟩

/-! ### C6 and C7: the organizer -/

theorem posFilter_cons_pos (b : String) (kv : String × Player) (ps : PMap)
    (h : pyLower kv.2.position = b) :
    posFilter b (kv :: ps) = kv.2 :: posFilter b ps := by
  simp [posFilter, h]

theorem posFilter_cons_neg (b : String) (kv : String × Player) (ps : PMap)
    (h : pyLower kv.2.position ≠ b) :
    posFilter b (kv :: ps) = posFilter b ps := by
  simp [posFilter, h]

theorem organize_fold_closed :
    ∀ (ps : PMap) (A B C D : List Player) (lg : List String),
      (ps.foldl organizeStep ([("qb", A), ("rb", B), ("wr", C), ("te", D)], lg)).1 =
        [("qb", A ++ posFilter "qb" ps), ("rb", B ++ posFilter "rb" ps),
         ("wr", C ++ posFilter "wr" ps), ("te", D ++ posFilter "te" ps)] := by
  intro ps
  induction ps with
  | nil => intro A B C D lg; simp [posFilter]
  | cons kv ps ih =>
    intro A B C D lg
    rw [List.foldl_cons]
    simp only [organizeStep]
    by_cases h1 : pyLower kv.2.position = "def" ∨ pyLower kv.2.position = "pk"
    · rw [if_pos h1]
      rw [ih A B C D lg]
      have hne : ∀ b : String, b = "qb" ∨ b = "rb" ∨ b = "wr" ∨ b = "te" →
          pyLower kv.2.position ≠ b := by
        rcases h1 with h | h <;> intro b hb <;> rw [h] <;>
          rcases hb with h2 | h2 | h2 | h2 <;> rw [h2] <;> decide
      rw [posFilter_cons_neg _ _ _ (hne "qb" (Or.inl rfl)),
          posFilter_cons_neg _ _ _ (hne "rb" (Or.inr (Or.inl rfl))),
          posFilter_cons_neg _ _ _ (hne "wr" (Or.inr (Or.inr (Or.inl rfl)))),
          posFilter_cons_neg _ _ _ (hne "te" (Or.inr (Or.inr (Or.inr rfl))))]
    · rw [if_neg h1]
      by_cases hq : pyLower kv.2.position = "qb"
      · rw [if_pos (by simp [containsB, hq])]
        have hba : bucketAppend [("qb", A), ("rb", B), ("wr", C), ("te", D)]
            (pyLower kv.2.position) kv.2 =
            [("qb", A ++ [kv.2]), ("rb", B), ("wr", C), ("te", D)] := by
          rw [hq]
          simp [bucketAppend]
        rw [hba, ih (A ++ [kv.2]) B C D lg,
            posFilter_cons_pos _ _ _ hq,
            posFilter_cons_neg "rb" _ _ (by rw [hq]; decide),
            posFilter_cons_neg "wr" _ _ (by rw [hq]; decide),
            posFilter_cons_neg "te" _ _ (by rw [hq]; decide)]
        simp
      by_cases hr : pyLower kv.2.position = "rb"
      · rw [if_pos (by simp [containsB, hr])]
        have hba : bucketAppend [("qb", A), ("rb", B), ("wr", C), ("te", D)]
            (pyLower kv.2.position) kv.2 =
            [("qb", A), ("rb", B ++ [kv.2]), ("wr", C), ("te", D)] := by
          rw [hr]
          simp [bucketAppend]
        rw [hba, ih A (B ++ [kv.2]) C D lg,
            posFilter_cons_pos _ _ _ hr,
            posFilter_cons_neg "qb" _ _ (by rw [hr]; decide),
            posFilter_cons_neg "wr" _ _ (by rw [hr]; decide),
            posFilter_cons_neg "te" _ _ (by rw [hr]; decide)]
        simp
      by_cases hw : pyLower kv.2.position = "wr"
      · rw [if_pos (by simp [containsB, hw])]
        have hba : bucketAppend [("qb", A), ("rb", B), ("wr", C), ("te", D)]
            (pyLower kv.2.position) kv.2 =
            [("qb", A), ("rb", B), ("wr", C ++ [kv.2]), ("te", D)] := by
          rw [hw]
          simp [bucketAppend]
        rw [hba, ih A B (C ++ [kv.2]) D lg,
            posFilter_cons_pos _ _ _ hw,
            posFilter_cons_neg "qb" _ _ (by rw [hw]; decide),
            posFilter_cons_neg "rb" _ _ (by rw [hw]; decide),
            posFilter_cons_neg "te" _ _ (by rw [hw]; decide)]
        simp
      by_cases ht : pyLower kv.2.position = "te"
      · rw [if_pos (by simp [containsB, ht])]
        have hba : bucketAppend [("qb", A), ("rb", B), ("wr", C), ("te", D)]
            (pyLower kv.2.position) kv.2 =
            [("qb", A), ("rb", B), ("wr", C), ("te", D ++ [kv.2])] := by
          rw [ht]
          simp [bucketAppend]
        rw [hba, ih A B C (D ++ [kv.2]) lg,
            posFilter_cons_pos _ _ _ ht,
            posFilter_cons_neg "qb" _ _ (by rw [ht]; decide),
            posFilter_cons_neg "rb" _ _ (by rw [ht]; decide),
            posFilter_cons_neg "wr" _ _ (by rw [ht]; decide)]
        simp
      · rw [if_neg (by
          simp only [containsB, List.any_cons, List.any_nil, Bool.or_false,
            Bool.or_eq_true, decide_eq_true_eq]
          rintro (h | h | h | h)
          exacts [hq h.symm, hr h.symm, hw h.symm, ht h.symm])]
        rw [ih A B C D _]
        rw [posFilter_cons_neg "qb" _ _ hq, posFilter_cons_neg "rb" _ _ hr,
            posFilter_cons_neg "wr" _ _ hw, posFilter_cons_neg "te" _ _ ht]

theorem organize_db_data_eq (m : PMap) :
    (organize_db_data m).1 =
      [("qb", sortByAdp (posFilter "qb" m)), ("rb", sortByAdp (posFilter "rb" m)),
       ("wr", sortByAdp (posFilter "wr" m)), ("te", sortByAdp (posFilter "te" m))] := by
  simp only [organize_db_data]
  rw [organize_fold_closed m [] [] [] [] []]
  simp

theorem sortByAdp_pairwise (l : List Player) :
    (sortByAdp l).Pairwise (fun x y => x.adp ≤ y.adp) :=
  List.sorted_insertionSort (fun a b : Player => a.adp ≤ b.adp) l

theorem filter_orderedInsert_adp (q : Rat) (a : Player) :
    ∀ l : List Player,
      (List.orderedInsert (fun x y => x.adp ≤ y.adp) a l).filter
          (fun p => p.adp = q) =
        if a.adp = q then a :: l.filter (fun p => p.adp = q)
        else l.filter (fun p => p.adp = q)
  | [] => by by_cases h : a.adp = q <;> simp [List.orderedInsert, h]
  | b :: l => by
    simp only [List.orderedInsert]
    by_cases hab : a.adp ≤ b.adp
    · rw [if_pos hab]
      by_cases ha : a.adp = q <;> by_cases hb : b.adp = q <;>
        simp [List.filter_cons, ha, hb]
    · rw [if_neg hab]
      have key := filter_orderedInsert_adp q a l
      by_cases ha : a.adp = q
      · by_cases hb : b.adp = q
        · exact absurd (le_of_eq (ha.trans hb.symm)) hab
        · simp [List.filter_cons, ha, hb, key]
      · by_cases hb : b.adp = q <;> simp [List.filter_cons, ha, hb, key]

theorem sortByAdp_filter_eq :
    ∀ (l : List Player) (q : Rat),
      (sortByAdp l).filter (fun p => p.adp = q) = l.filter (fun p => p.adp = q)
  | [], _ => rfl
  | a :: l, q => by
    simp only [sortByAdp, List.insertionSort]
    rw [filter_orderedInsert_adp q a (List.insertionSort _ l)]
    by_cases ha : a.adp = q
    · rw [if_pos ha,
          show List.insertionSort (fun x y => x.adp ≤ y.adp) l = sortByAdp l from rfl,
          sortByAdp_filter_eq l q, List.filter_cons_of_pos (by simp [ha])]
    · rw [if_neg ha,
          show List.insertionSort (fun x y => x.adp ≤ y.adp) l = sortByAdp l from rfl,
          sortByAdp_filter_eq l q, List.filter_cons_of_neg (by simp [ha])]

/-- C6: the organizer output has exactly the four keys qb, rb, wr, te (each
present even when empty), every record placed in a bucket has a lowercased
position equal to that bucket key (so positions outside the set never
appear), and every bucket record comes from the input mapping (whose records
all carry an `adp` by construction). -/
theorem organizer_buckets (m : PMap) :
    (organize_db_data m).1.map Prod.fst = ["qb", "rb", "wr", "te"] ∧
    (∀ b l, (b, l) ∈ (organize_db_data m).1 →
      ∀ p ∈ l, pyLower p.position = b ∧ p ∈ m.map Prod.snd) := by
  constructor
  · rw [organize_db_data_eq]
    rfl
  · intro b l hmem p hp
    rw [organize_db_data_eq] at hmem
    have hpf : ∀ b', l = sortByAdp (posFilter b' m) → pyLower p.position = b' ∧
        p ∈ m.map Prod.snd := by
      intro b' hl
      rw [hl] at hp
      have hp2 : p ∈ posFilter b' m :=
        (List.mem_insertionSort _).mp hp
      simp only [posFilter, List.mem_filter, decide_eq_true_eq] at hp2
      exact ⟨hp2.2, hp2.1⟩
    simp only [List.mem_cons, List.not_mem_nil, or_false, Prod.mk.injEq] at hmem
    rcases hmem with ⟨hb, hl⟩ | ⟨hb, hl⟩ | ⟨hb, hl⟩ | ⟨hb, hl⟩ <;>
      exact hb ▸ hpf _ hl

/-- C7: each position bucket of the organizer output is sorted ascending by
`adp`, and stably: for every adp value, the bucket records with that value
appear in exactly their original relative order in the input mapping. -/
theorem organizer_sorted_stable (m : PMap) (b : String) (l : List Player)
    (hmem : (b, l) ∈ (organize_db_data m).1) :
    l.Pairwise (fun x y => x.adp ≤ y.adp) ∧
    (∀ q : Rat, l.filter (fun p => p.adp = q) =
      (posFilter b m).filter (fun p => p.adp = q)) := by
  rw [organize_db_data_eq] at hmem
  simp only [List.mem_cons, List.not_mem_nil, or_false, Prod.mk.injEq] at hmem
  rcases hmem with ⟨hb, hl⟩ | ⟨hb, hl⟩ | ⟨hb, hl⟩ | ⟨hb, hl⟩ <;>
    subst hb <;> subst hl <;>
    exact ⟨sortByAdp_pairwise _, fun q => sortByAdp_filter_eq _ q⟩

/-- Witness for C6 at the sample mapping: the four keys are present and the
sample quarterback lands in the qb bucket. -/
theorem organizer_buckets_witness :
    (organize_db_data sampleMap).1.map Prod.fst = ["qb", "rb", "wr", "te"] ∧
    (pyLower sampleRecord.position = "qb" ∧ sampleRecord ∈ sampleMap.map Prod.snd) :=
  ⟨(organizer_buckets sampleMap).1,
   (organizer_buckets sampleMap).2 "qb" [sampleRecord] (by decide)
     sampleRecord (by decide)⟩

/-- Witness for C7 at the sample mapping and its qb bucket. -/
theorem organizer_sorted_stable_witness :
    ([sampleRecord] : List Player).Pairwise (fun x y => x.adp ≤ y.adp) ∧
    (∀ q : Rat, ([sampleRecord] : List Player).filter (fun p => p.adp = q) =
      (posFilter "qb" sampleMap).filter (fun p => p.adp = q)) :=
  organizer_sorted_stable sampleMap "qb" [sampleRecord] (by decide)

/-! ### C9: cache snapshot roundtrip -/


/-! ### C9: cache snapshot roundtrip -/

theorem jLookup_append (l1 l2 : List (String × JsonVal)) (k : String) :
    jLookup (l1 ++ l2) k = (jLookup l1 k).or (jLookup l2 k) := by
  induction l1 with
  | nil => simp [jLookup]
  | cons kv l1 ih =>
    by_cases h : kv.1 = k <;>
      simp_all [jLookup, List.find?]

theorem jLookup_optField_self (k : String) (x : Option JsonVal) :
    jLookup (optField k x) k = x := by
  cases x <;> simp [optField, jLookup, List.find?]

theorem jLookup_optField_ne (k' k : String) (x : Option JsonVal)
    (h : k' ≠ k) : jLookup (optField k' x) k = none := by
  cases x <;> simp [optField, jLookup, List.find?, h]

theorem option_or_none {α : Type} (x : Option α) : x.or none = x := by
  cases x <;> rfl

theorem members_lookup_name (p : Player) :
    jStr (playerMembers p) "name" = some p.name := rfl

theorem members_lookup_position (p : Player) :
    jStr (playerMembers p) "position" = some p.position := rfl

theorem members_lookup_team (p : Player) :
    jStr (playerMembers p) "team" = some p.team := rfl

theorem members_lookup_adp (p : Player) :
    jNum (playerMembers p) "adp" = some p.adp := rfl

theorem jLookup_cons_ne (s : String) (j : JsonVal)
    (l : List (String × JsonVal)) (k : String) (h : s ≠ k) :
    jLookup ((s, j) :: l) k = jLookup l k := by
  simp [jLookup, List.find?, h]

theorem members_lookup_my_guy (p : Player) :
    jOptBool (playerMembers p) "my_guy" = some p.my_guy := by
  have h : jLookup (playerMembers p) "my_guy" = p.my_guy.map JsonVal.jbool := by
    rw [playerMembers,
        jLookup_cons_ne _ _ _ _ (by decide), jLookup_cons_ne _ _ _ _ (by decide),
        jLookup_cons_ne _ _ _ _ (by decide), jLookup_cons_ne _ _ _ _ (by decide),
        jLookup_append, jLookup_optField_self,
        jLookup_append, jLookup_optField_ne _ _ _ (by decide),
        jLookup_append, jLookup_optField_ne _ _ _ (by decide),
        jLookup_append, jLookup_optField_ne _ _ _ (by decide),
        jLookup_append, jLookup_optField_ne _ _ _ (by decide),
        jLookup_append, jLookup_optField_ne _ _ _ (by decide),
        jLookup_optField_ne _ _ _ (by decide)]
    cases p.my_guy <;> rfl
  rw [jOptBool, h]
  cases p.my_guy <;> rfl

theorem members_lookup_rank (p : Player) :
    jOptInt (playerMembers p) "rank" = some p.rank := by
  have h : jLookup (playerMembers p) "rank" = p.rank.map JsonVal.jint := by
    rw [playerMembers,
        jLookup_cons_ne _ _ _ _ (by decide),
        jLookup_cons_ne _ _ _ _ (by decide),
        jLookup_cons_ne _ _ _ _ (by decide),
        jLookup_cons_ne _ _ _ _ (by decide),
        jLookup_append,
        jLookup_optField_ne _ _ _ (by decide),
        jLookup_append,
        jLookup_optField_self,
        jLookup_append,
        jLookup_optField_ne _ _ _ (by decide),
        jLookup_append,
        jLookup_optField_ne _ _ _ (by decide),
        jLookup_append,
        jLookup_optField_ne _ _ _ (by decide),
        jLookup_append,
        jLookup_optField_ne _ _ _ (by decide),
        jLookup_optField_ne _ _ _ (by decide)]
    cases p.rank <;> rfl
  rw [jOptInt, h]
  cases p.rank <;> rfl

theorem members_lookup_andy (p : Player) :
    jOptInt (playerMembers p) "andy" = some p.andy := by
  have h : jLookup (playerMembers p) "andy" = p.andy.map JsonVal.jint := by
    rw [playerMembers,
        jLookup_cons_ne _ _ _ _ (by decide),
        jLookup_cons_ne _ _ _ _ (by decide),
        jLookup_cons_ne _ _ _ _ (by decide),
        jLookup_cons_ne _ _ _ _ (by decide),
        jLookup_append,
        jLookup_optField_ne _ _ _ (by decide),
        jLookup_append,
        jLookup_optField_ne _ _ _ (by decide),
        jLookup_append,
        jLookup_optField_self,
        jLookup_append,
        jLookup_optField_ne _ _ _ (by decide),
        jLookup_append,
        jLookup_optField_ne _ _ _ (by decide),
        jLookup_append,
        jLookup_optField_ne _ _ _ (by decide),
        jLookup_optField_ne _ _ _ (by decide)]
    cases p.andy <;> rfl
  rw [jOptInt, h]
  cases p.andy <;> rfl

theorem members_lookup_mike (p : Player) :
    jOptInt (playerMembers p) "mike" = some p.mike := by
  have h : jLookup (playerMembers p) "mike" = p.mike.map JsonVal.jint := by
    rw [playerMembers,
        jLookup_cons_ne _ _ _ _ (by decide),
        jLookup_cons_ne _ _ _ _ (by decide),
        jLookup_cons_ne _ _ _ _ (by decide),
        jLookup_cons_ne _ _ _ _ (by decide),
        jLookup_append,
        jLookup_optField_ne _ _ _ (by decide),
        jLookup_append,
        jLookup_optField_ne _ _ _ (by decide),
        jLookup_append,
        jLookup_optField_ne _ _ _ (by decide),
        jLookup_append,
        jLookup_optField_self,
        jLookup_append,
        jLookup_optField_ne _ _ _ (by decide),
        jLookup_append,
        jLookup_optField_ne _ _ _ (by decide),
        jLookup_optField_ne _ _ _ (by decide)]
    cases p.mike <;> rfl
  rw [jOptInt, h]
  cases p.mike <;> rfl

theorem members_lookup_jason (p : Player) :
    jOptInt (playerMembers p) "jason" = some p.jason := by
  have h : jLookup (playerMembers p) "jason" = p.jason.map JsonVal.jint := by
    rw [playerMembers,
        jLookup_cons_ne _ _ _ _ (by decide),
        jLookup_cons_ne _ _ _ _ (by decide),
        jLookup_cons_ne _ _ _ _ (by decide),
        jLookup_cons_ne _ _ _ _ (by decide),
        jLookup_append,
        jLookup_optField_ne _ _ _ (by decide),
        jLookup_append,
        jLookup_optField_ne _ _ _ (by decide),
        jLookup_append,
        jLookup_optField_ne _ _ _ (by decide),
        jLookup_append,
        jLookup_optField_ne _ _ _ (by decide),
        jLookup_append,
        jLookup_optField_self,
        jLookup_append,
        jLookup_optField_ne _ _ _ (by decide),
        jLookup_optField_ne _ _ _ (by decide)]
    cases p.jason <;> rfl
  rw [jOptInt, h]
  cases p.jason <;> rfl

theorem members_lookup_depth_order (p : Player) :
    jOptInt (playerMembers p) "depth_order" = some p.depth_order := by
  have h : jLookup (playerMembers p) "depth_order" = p.depth_order.map JsonVal.jint := by
    rw [playerMembers,
        jLookup_cons_ne _ _ _ _ (by decide),
        jLookup_cons_ne _ _ _ _ (by decide),
        jLookup_cons_ne _ _ _ _ (by decide),
        jLookup_cons_ne _ _ _ _ (by decide),
        jLookup_append,
        jLookup_optField_ne _ _ _ (by decide),
        jLookup_append,
        jLookup_optField_ne _ _ _ (by decide),
        jLookup_append,
        jLookup_optField_ne _ _ _ (by decide),
        jLookup_append,
        jLookup_optField_ne _ _ _ (by decide),
        jLookup_append,
        jLookup_optField_ne _ _ _ (by decide),
        jLookup_append,
        jLookup_optField_self,
        jLookup_optField_ne _ _ _ (by decide)]
    cases p.depth_order <;> rfl
  rw [jOptInt, h]
  cases p.depth_order <;> rfl

theorem members_lookup_depth_display_order (p : Player) :
    jOptInt (playerMembers p) "depth_display_order" = some p.depth_display_order := by
  have h : jLookup (playerMembers p) "depth_display_order" = p.depth_display_order.map JsonVal.jint := by
    rw [playerMembers,
        jLookup_cons_ne _ _ _ _ (by decide),
        jLookup_cons_ne _ _ _ _ (by decide),
        jLookup_cons_ne _ _ _ _ (by decide),
        jLookup_cons_ne _ _ _ _ (by decide),
        jLookup_append,
        jLookup_optField_ne _ _ _ (by decide),
        jLookup_append,
        jLookup_optField_ne _ _ _ (by decide),
        jLookup_append,
        jLookup_optField_ne _ _ _ (by decide),
        jLookup_append,
        jLookup_optField_ne _ _ _ (by decide),
        jLookup_append,
        jLookup_optField_ne _ _ _ (by decide),
        jLookup_append,
        jLookup_optField_ne _ _ _ (by decide),
        jLookup_optField_self]
    cases p.depth_display_order <;> rfl
  rw [jOptInt, h]
  cases p.depth_display_order <;> rfl

theorem player_json_roundtrip (p : Player) :
    Player.fromJson (Player.toJson p) = some p := by
  simp only [Player.toJson, Player.fromJson, members_lookup_name,
    members_lookup_position, members_lookup_team, members_lookup_adp,
    members_lookup_my_guy, members_lookup_rank, members_lookup_andy,
    members_lookup_mike, members_lookup_jason, members_lookup_depth_order,
    members_lookup_depth_display_order, Option.bind_eq_bind, Option.some_bind]

theorem pmap_json_roundtrip : ∀ m : PMap, decodePMap (encodePMap m) = some m
  | [] => rfl
  | kv :: m => by
    have ih := pmap_json_roundtrip m
    simp only [encodePMap, decodePMap, List.map_cons, decodeMembers] at ih ⊢
    rw [player_json_roundtrip]
    simp [ih]

/-- C9: serializing a merged dataset to the cache snapshot document and
decoding it back yields a field-for-field identical mapping (unset
enrichment fields are absent members and decode back to unset). -/
theorem cache_snapshot_roundtrip (m : PMap) :
    decodePMap (encodePMap m) = some m :=
  pmap_json_roundtrip m
